import Mathlib

/-!
Shallow embedding of the progress-synchronization logic of the
Construction-AI-Agent front-end, translated from
`src/frontend/src/pages/ProjectProcessing.jsx` and
`src/frontend/src/hooks/useWebSocket.js`.

JavaScript optional / falsy fields are modelled with `Option`:
`none` stands for a missing (`undefined`/`null`) field, and the JS
`a || b` operator is modelled by helpers that also treat the empty
string and the number `0` as falsy, exactly as JS does.
-/

namespace ConstructionAI

/-- Model of the JS expression `a || b` on two optional strings
(`undefined`, `null` and `""` are falsy, so they fall through to `b`). -/
def jsOrStr (a b : Option String) : Option String :=
  match a with
  | some s => if s = "" then b else some s
  | none => b

/-- Model of the JS expression `a || d` where `a` is an optional string
field and `d` is an already-evaluated string default. -/
def jsOrStrD (a : Option String) (d : String) : String :=
  match a with
  | some s => if s = "" then d else s
  | none => d

/-- Model of the JS expression `a || d` where `a` is an optional numeric
field (the number `0` is falsy in JS, so it also falls through to `d`). -/
def jsOrInt (a : Option Int) (d : Int) : Int :=
  match a with
  | some v => if v = 0 then d else v
  | none => d

/-- A decoded WebSocket frame as consumed by the processing view:
a JSON object with optional `type`, `stage`, `progress` and `message`
fields. -/
structure SocketMessage where
  type : Option String
  stage : Option String
  progress : Option Int
  message : Option String
deriving Repr, DecidableEq

/-- The `progress` component state of `ProjectProcessing`
(`useState({ stage: 'upload', progress: 0, message: 'Initializing...' })`). -/
structure DisplayProgress where
  stage : String
  progress : Int
  message : String
deriving Repr, DecidableEq

/-- Initial value of the `progress` state in `ProjectProcessing.jsx`
(line 24). -/
def initialProgress : DisplayProgress :=
  { stage := "upload", progress := 0, message := "Initializing..." }

/-- The clamp applied to an incoming socket progress value:
`Math.max(0, Math.min(100, lastMessage.progress || 0))`
(ProjectProcessing.jsx line 50). -/
def clampProgress (p : Option Int) : Int :=
  max 0 (min 100 (jsOrInt p 0))

/-- The `setProgress` updater run by the `lastMessage` effect in
`ProjectProcessing.jsx` (lines 46-68): when the message has
`type === 'progress'`, clamp the incoming value, accept it only when it
is `>=` the current value, and always refresh stage/message text from
the newest packet (with JS `||` fallbacks). A message of any other type
leaves the state untouched. -/
def mergeProgress (prev : DisplayProgress) (m : SocketMessage) : DisplayProgress :=
  if m.type = some "progress" then
    let newProgressValue := clampProgress m.progress
    if newProgressValue ≥ prev.progress then
      { stage := jsOrStrD m.stage prev.stage
        progress := newProgressValue
        message := jsOrStrD m.message (jsOrStrD (some prev.message) "Processing...") }
    else
      { stage := jsOrStrD m.stage prev.stage
        progress := prev.progress
        message := jsOrStrD m.message (jsOrStrD (some prev.message) "Processing...") }
  else prev

/-- The sequence of displayed progress states produced by a stream of
socket messages, starting from a given state (the initial state first,
then the state after each message). -/
def progressTrace (init : DisplayProgress) (msgs : List SocketMessage) : List DisplayProgress :=
  msgs.scanl mergeProgress init

/-- A well-formed progress packet carrying only a percentage, as used in
the spec example (stage and message text present and non-empty). -/
def mkProgressMsg (p : Int) : SocketMessage :=
  { type := some "progress", stage := some "extraction", progress := some p
    message := some "Working..." }

/-! ### The WebSocket listener (`useWebSocket.js`) -/

/-- The local state of the `useWebSocket` hook: the `connected` flag and
the last successfully decoded message. -/
structure WsState where
  connected : Bool
  lastMessage : Option SocketMessage
deriving Repr, DecidableEq

/-- The `onmessage` handler of `useWebSocket.js` (lines 19-26), at the
boundary of `JSON.parse`: the argument is the outcome of parsing the
frame payload (`none` when the payload is not valid JSON and the parse
throws). A successful parse stores the data via `setLastMessage`; a
parse failure is caught, logged (the returned `Bool` records that the
error branch ran) and otherwise ignored. -/
def onMessage (st : WsState) (parsed : Option SocketMessage) : WsState × Bool :=
  match parsed with
  | some data => ({ st with lastMessage := some data }, false)
  | none => (st, true)

/-! ### The polling loop (`pollForCompletion`, ProjectProcessing.jsx 95-161) -/

/-- Opaque stand-in for the backend takeoff-result object attached to a
project; the view only tests it for truthiness (a JSON object is truthy
whenever present, i.e. not `null`/`undefined`). -/
structure TakeoffResult where
  payload : String
deriving Repr, DecidableEq

/-- The fields of the project object that `pollForCompletion` reads:
`status`, `project_status` and `takeoff_result`. -/
structure Project where
  status : Option String
  project_status : Option String
  takeoff_result : Option TakeoffResult
deriving Repr, DecidableEq

/-- The fields of the takeoff object that the fallback branch reads. -/
structure Takeoff where
  status : Option String
  project_status : Option String
deriving Repr, DecidableEq

/-- Outcome of an awaited HTTP fetch: a resolved value or a rejection
(caught by the surrounding `try`/`catch`). -/
inductive Fetch (α : Type) where
  | ok (val : α)
  | err
deriving Repr, DecidableEq

/-- The externally visible effects of one interval callback of
`pollForCompletion`: whether it cleared the polling interval, the delay
of a `setTimeout(... navigate ...)` it scheduled (if any), the argument
of a `setError` call (if any), and whether the fallback `getTakeoff`
fetch was attempted. -/
structure TickEffect where
  stopPolling : Bool
  navDelay : Option Nat
  errorMsg : Option String
  fallbackAttempted : Bool
deriving Repr, DecidableEq

/-- A tick that reaches no branch: polling continues, nothing scheduled. -/
def noTickEffect : TickEffect :=
  { stopPolling := false, navDelay := none, errorMsg := none, fallbackAttempted := false }

/-- One interval callback of `pollForCompletion` (ProjectProcessing.jsx
lines 96-152), as a function of the outcomes of the two fetches it may
await. `primary` is `getProject(id)` (resolving to `none` models a null
project, which the guard at line 101 returns on); `fallback` is
`getTakeoff(id)`, consulted only in the `catch` branch (a null takeoff
throws on property access inside the inner `try` and is swallowed like
a rejection). The status strings and the 2000 ms navigation delay are
taken verbatim from the source. -/
def pollTick (primary : Fetch (Option Project)) (fallback : Fetch (Option Takeoff)) :
    TickEffect :=
  match primary with
  | .ok none => noTickEffect
  | .ok (some project) =>
    let status := jsOrStr project.status project.project_status
    if status = some "completed" ∨ status = some "expert_review" ∨ status = some "ai_complete" then
      { stopPolling := true, navDelay := some 2000, errorMsg := none, fallbackAttempted := false }
    else if status = some "cancelled" ∨ status = some "failed" then
      { stopPolling := true, navDelay := none
        errorMsg := some (if status = some "cancelled" then "Processing was cancelled" else "Processing failed")
        fallbackAttempted := false }
    else if status = some "processing" then
      if project.takeoff_result.isSome then
        { stopPolling := true, navDelay := some 2000, errorMsg := none, fallbackAttempted := false }
      else noTickEffect
    else noTickEffect
  | .err =>
    match fallback with
    | .ok (some takeoff) =>
      let status := jsOrStr takeoff.status takeoff.project_status
      if status = some "completed" ∨ status = some "expert_review" ∨ status = some "ai_complete" then
        { stopPolling := true, navDelay := some 2000, errorMsg := none, fallbackAttempted := true }
      else if status = some "cancelled" ∨ status = some "failed" then
        { stopPolling := true, navDelay := none
          errorMsg := some (if status = some "cancelled" then "Processing was cancelled" else "Processing failed")
          fallbackAttempted := true }
      else { noTickEffect with fallbackAttempted := true }
    | .ok none => { noTickEffect with fallbackAttempted := true }
    | .err => { noTickEffect with fallbackAttempted := true }

/-- The status a tick observes: the effective status string computed on
whichever of the two fetch results the control flow actually reads. -/
def tickObservedStatus (primary : Fetch (Option Project)) (fallback : Fetch (Option Takeoff)) :
    Option String :=
  match primary with
  | .ok (some project) => jsOrStr project.status project.project_status
  | .ok none => none
  | .err =>
    match fallback with
    | .ok (some takeoff) => jsOrStr takeoff.status takeoff.project_status
    | _ => none

/-- Polling cadence of `setInterval` (ProjectProcessing.jsx line 153). -/
def pollIntervalMs : Nat := 3000

/-- The hard polling ceiling of the `setTimeout` that force-clears the
interval (ProjectProcessing.jsx line 160): 5 minutes. -/
def pollTimeoutMs : Nat := 5 * 60 * 1000

/-- Time at which the `(n+1)`-th interval callback fires: `setInterval`
first fires one period after registration. -/
def tickTime (n : Nat) : Nat := pollIntervalMs * (n + 1)

/-- State of one polling session: whether the interval is still live,
how many callbacks have run, the delays of all navigations scheduled by
callbacks so far, and the current `error` view state. -/
structure SessionState where
  pollingActive : Bool
  ticksRun : Nat
  navsScheduled : List Nat
  errorMsg : Option String
deriving Repr, DecidableEq

/-- Session state right after `pollForCompletion` registers the interval. -/
def initialSession : SessionState :=
  { pollingActive := true, ticksRun := 0, navsScheduled := [], errorMsg := none }

/-- One scheduling step of the polling session: if the interval is still
live and the next callback would fire no later than the 5-minute
ceiling, run `pollTick` on the supplied fetch outcomes and apply its
effects; if the ceiling has passed, the `setTimeout` at line 156-160
clears the interval instead; a cleared interval runs nothing. -/
def stepSession (st : SessionState) (inp : Fetch (Option Project) × Fetch (Option Takeoff)) :
    SessionState :=
  if st.pollingActive then
    if tickTime st.ticksRun ≤ pollTimeoutMs then
      let e := pollTick inp.1 inp.2
      { pollingActive := !e.stopPolling
        ticksRun := st.ticksRun + 1
        navsScheduled := st.navsScheduled ++ e.navDelay.toList
        errorMsg := match e.errorMsg with | some msg => some msg | none => st.errorMsg }
    else { st with pollingActive := false }
  else st

/-- A whole polling session: fold the scheduler over the stream of fetch
outcomes delivered to successive interval callbacks. -/
def runSession (inps : List (Fetch (Option Project) × Fetch (Option Takeoff))) : SessionState :=
  inps.foldl stepSession initialSession

/-- Largest number of interval callbacks that can fire before the
5-minute ceiling: one every 3 seconds for 5 minutes. -/
def maxPollTicks : Nat := pollTimeoutMs / pollIntervalMs

/-- Session invariant: at most one navigation has been scheduled, every
scheduled navigation has the 2000 ms delay, a scheduled navigation
implies the interval is already cleared, and no more callbacks have run
than the 5-minute ceiling allows. -/
def SessInv (st : SessionState) : Prop :=
  st.navsScheduled.length ≤ 1 ∧
  (∀ d ∈ st.navsScheduled, d = 2000) ∧
  (st.navsScheduled ≠ [] → st.pollingActive = false) ∧
  st.ticksRun ≤ maxPollTicks

/-! ### Event-loop model of overlapping interval callbacks

The interval callback of `pollForCompletion` is `async`: it suspends at
`await getProject(id)`, and `setInterval` fires again while it is still
pending. `clearInterval` stops future firings but does not cancel a
continuation already suspended at its `await`, so callbacks can overlap
and a continuation can still run after the interval has been cleared.
The following model captures that at the fidelity of the JS event loop. -/

/-- One event of a polling session: `fire` is the interval timer firing
(a new callback starts only if the interval has not been cleared, and
then suspends awaiting its fetches, whose eventual outcomes label the
event); `resolve` is the oldest in-flight callback's fetch resolving,
whose continuation then runs the branch code of `pollForCompletion`
even if the interval has been cleared meanwhile. -/
inductive PollEvent where
  | fire (inp : Fetch (Option Project) × Fetch (Option Takeoff))
  | resolve
deriving Repr, DecidableEq

/-- State of a polling session under the event-loop model: whether the
interval is still live, the queue of in-flight callbacks (oldest
first), the delays of all navigations scheduled so far, and the current
`error` view state. -/
structure AsyncSessionState where
  pollingActive : Bool
  pending : List (Fetch (Option Project) × Fetch (Option Takeoff))
  navsScheduled : List Nat
  errorMsg : Option String
deriving Repr, DecidableEq

/-- Session state right after `pollForCompletion` registers the interval. -/
def initialAsyncSession : AsyncSessionState :=
  { pollingActive := true, pending := [], navsScheduled := [], errorMsg := none }

/-- One event-loop step: a timer firing enqueues a new in-flight
callback only while the interval is live; a resolution dequeues the
oldest in-flight callback and applies its `pollTick` effects
unconditionally (its continuation is not cancelled by a prior
`clearInterval`, which only keeps the interval cleared). -/
def stepAsync (st : AsyncSessionState) (ev : PollEvent) : AsyncSessionState :=
  match ev with
  | .fire inp =>
    if st.pollingActive then { st with pending := st.pending ++ [inp] } else st
  | .resolve =>
    match st.pending with
    | [] => st
    | inp :: rest =>
      let e := pollTick inp.1 inp.2
      { pollingActive := st.pollingActive && !e.stopPolling
        pending := rest
        navsScheduled := st.navsScheduled ++ e.navDelay.toList
        errorMsg := match e.errorMsg with | some msg => some msg | none => st.errorMsg }

/-- A whole polling session under the event-loop model. -/
def runAsyncSession (evs : List PollEvent) : AsyncSessionState :=
  evs.foldl stepAsync initialAsyncSession

/-- The event schedule of a session whose callbacks never overlap: each
callback's fetch resolves before the next timer firing. -/
def serializedEvents :
    List (Fetch (Option Project) × Fetch (Option Takeoff)) → List PollEvent
  | [] => []
  | inp :: inps => .fire inp :: .resolve :: serializedEvents inps

/-- Invariant of non-overlapping sessions: no callback is in flight
between steps, at most one navigation has been scheduled, every
scheduled navigation has the 2000 ms delay, and a scheduled navigation
implies the interval is already cleared. -/
def AsyncInv (st : AsyncSessionState) : Prop :=
  st.pending = [] ∧
  st.navsScheduled.length ≤ 1 ∧
  (∀ d ∈ st.navsScheduled, d = 2000) ∧
  (st.navsScheduled ≠ [] → st.pollingActive = false)

/-! ### The cancel handler (`handleCancel`, ProjectProcessing.jsx 163-197) -/

/-- The component state that `handleCancel` reads and writes, together
with whether the polling interval is live. -/
structure CancelViewState where
  isProcessing : Bool
  isCancelling : Bool
  error : Option String
  progress : DisplayProgress
  pollingActive : Bool
deriving Repr, DecidableEq

/-- The externally visible effects of one `handleCancel` run: whether
the backend `cancelTakeoff` request was issued, and the delay of a
scheduled navigation, if any. -/
structure CancelEffect where
  requestIssued : Bool
  navDelay : Option Nat
deriving Repr, DecidableEq

/-- One run of `handleCancel` (ProjectProcessing.jsx lines 163-197), as
a function of whether a project is loaded, whether the user confirmed
the `window.confirm` dialog, and the outcome of the awaited
`cancelTakeoff` request (`Except.error msg` carries the message that the
`catch` block passes to `setError`). The early returns at lines 164 and
166-168 issue no request and change nothing. -/
def handleCancel (st : CancelViewState) (hasProject confirmed : Bool)
    (cancelResult : Except String Unit) : CancelViewState × CancelEffect :=
  if ¬hasProject ∨ ¬st.isProcessing then
    (st, { requestIssued := false, navDelay := none })
  else if ¬confirmed then
    (st, { requestIssued := false, navDelay := none })
  else
    let st := { st with isCancelling := true, error := none }
    match cancelResult with
    | .ok _ =>
      ({ st with pollingActive := false
                 isProcessing := false
                 progress := { stage := "cancelled", progress := 0, message := "Processing cancelled" } },
       { requestIssued := true, navDelay := some 2000 })
    | .error msg =>
      ({ st with error := some msg, isCancelling := false },
       { requestIssued := true, navDelay := none })

/-! ### Helper lemmas about the progress merge -/

/-- The merge rule never decreases the displayed percentage. -/
theorem mergeProgress_progress_le (prev : DisplayProgress) (m : SocketMessage) :
    prev.progress ≤ (mergeProgress prev m).progress := by
  unfold mergeProgress
  split
  · dsimp only
    split
    · next h => exact h
    · exact le_rfl
  · exact le_rfl

/-- A scan of the merge rule starts at its initial state. -/
theorem scanl_mergeProgress_head (b : DisplayProgress) (l : List SocketMessage) :
    ((List.scanl mergeProgress b l).map DisplayProgress.progress).head? = some b.progress := by
  cases l <;> rfl

/-- The displayed percentage sequence of any trace is non-decreasing. -/
theorem progressTrace_chain (init : DisplayProgress) (msgs : List SocketMessage) :
    List.Chain' (· ≤ ·) ((progressTrace init msgs).map DisplayProgress.progress) := by
  unfold progressTrace
  induction msgs generalizing init with
  | nil => simp
  | cons m ms ih =>
    rw [List.scanl_cons, List.singleton_append, List.map_cons]
    refine List.chain'_cons'.mpr ⟨?_, ih (mergeProgress init m)⟩
    intro y hy
    rw [scanl_mergeProgress_head, Option.mem_def, Option.some_inj] at hy
    rw [← hy]
    exact mergeProgress_progress_le init m

/-- C1: for every sequence of socket progress messages in a session, the
displayed progress percentage is monotonically non-decreasing — a
message carrying a lower percentage keeps the prior maximum — and on the
spec's example input 10, 40, 25, 60 the displayed sequence is
10, 40, 40, 60. -/
theorem progress_monotone_nondecreasing :
    (∀ (init : DisplayProgress) (msgs : List SocketMessage),
        List.Chain' (· ≤ ·) ((progressTrace init msgs).map DisplayProgress.progress)) ∧
    ((progressTrace initialProgress ([10, 40, 25, 60].map mkProgressMsg)).map
        DisplayProgress.progress).drop 1 = [10, 40, 40, 60] :=
  ⟨progressTrace_chain, by decide⟩

/-- C6: for every incoming socket progress message carrying a (truthy)
stage and message text, the displayed stage and message take the newest
packet's values, whether or not its numeric progress value is accepted
by the monotonic rule. -/
theorem stage_message_take_newest (prev : DisplayProgress) (m : SocketMessage)
    (s t : String) (htype : m.type = some "progress")
    (hs : m.stage = some s) (hsne : s ≠ "")
    (ht : m.message = some t) (htne : t ≠ "") :
    (mergeProgress prev m).stage = s ∧ (mergeProgress prev m).message = t := by
  unfold mergeProgress
  rw [if_pos htype]
  dsimp only
  split <;> simp [jsOrStrD, hs, ht, hsne, htne]

/-- Witness for C6 at a concrete discarded-progress packet (incoming 10
against displayed 50): stage and message still come from the packet. -/
theorem stage_message_take_newest_witness :
    (mergeProgress ⟨"upload", 50, "Initializing..."⟩
        ⟨some "progress", some "cv", some 10, some "Scanning plans"⟩).stage = "cv" ∧
    (mergeProgress ⟨"upload", 50, "Initializing..."⟩
        ⟨some "progress", some "cv", some 10, some "Scanning plans"⟩).message = "Scanning plans" :=
  stage_message_take_newest _ _ _ _ rfl rfl (by decide) rfl (by decide)

/-! ### Helper lemmas for the clamping invariant -/

/-- The clamped socket value is never negative. -/
theorem clampProgress_nonneg (p : Option Int) : 0 ≤ clampProgress p :=
  le_max_left _ _

/-- The clamped socket value never exceeds 100. -/
theorem clampProgress_le_100 (p : Option Int) : clampProgress p ≤ 100 := by
  unfold clampProgress
  exact max_le (by norm_num) (min_le_left _ _)

/-- Closed form of the clamp on a present numeric field. -/
theorem clampProgress_some (v : Int) : clampProgress (some v) = max 0 (min 100 v) := by
  unfold clampProgress jsOrInt
  dsimp only
  split
  · next h => rw [h]
  · rfl

/-- On a progress-typed message the merge rule computes exactly the
maximum of the current value and the clamped incoming value. -/
theorem mergeProgress_progress_eq_max (prev : DisplayProgress) (m : SocketMessage)
    (htype : m.type = some "progress") :
    (mergeProgress prev m).progress = max prev.progress (clampProgress m.progress) := by
  unfold mergeProgress
  rw [if_pos htype]
  dsimp only
  split
  · next h => exact (max_eq_right h).symm
  · next h => exact (max_eq_left (le_of_not_le h)).symm

/-- One merge step preserves the 0..100 range of the displayed value. -/
theorem mergeProgress_bounds (prev : DisplayProgress) (m : SocketMessage)
    (h0 : 0 ≤ prev.progress) (h100 : prev.progress ≤ 100) :
    0 ≤ (mergeProgress prev m).progress ∧ (mergeProgress prev m).progress ≤ 100 := by
  unfold mergeProgress
  split
  · dsimp only
    split
    · exact ⟨clampProgress_nonneg _, clampProgress_le_100 _⟩
    · exact ⟨h0, h100⟩
  · exact ⟨h0, h100⟩

/-- Every displayed state of a trace started in range stays in range. -/
theorem progressTrace_bounds (init : DisplayProgress)
    (h0 : 0 ≤ init.progress) (h100 : init.progress ≤ 100)
    (msgs : List SocketMessage) :
    ∀ st ∈ progressTrace init msgs, 0 ≤ st.progress ∧ st.progress ≤ 100 := by
  unfold progressTrace
  induction msgs generalizing init with
  | nil =>
    intro st hst
    rw [List.scanl_nil, List.mem_singleton] at hst
    subst hst
    exact ⟨h0, h100⟩
  | cons m ms ih =>
    intro st hst
    rw [List.scanl_cons, List.singleton_append] at hst
    rcases List.mem_cons.mp hst with h | h
    · subst h; exact ⟨h0, h100⟩
    · exact ih (mergeProgress init m) (mergeProgress_bounds init m h0 h100).1
        (mergeProgress_bounds init m h0 h100).2 st h

/-- C10: the incoming socket value is clamped into 0..100 before the
monotonic rule (the merged value is the max of the current value and the
clamped incoming one), a missing progress field is treated as 0, the
clamp of a present value is `max 0 (min 100 v)`, and every displayed
percentage of a session starting at the initial state lies in 0..100. -/
theorem progress_clamped_in_range :
    (∀ (prev : DisplayProgress) (m : SocketMessage), m.type = some "progress" →
        (mergeProgress prev m).progress = max prev.progress (clampProgress m.progress)) ∧
    clampProgress none = 0 ∧
    (∀ v : Int, clampProgress (some v) = max 0 (min 100 v)) ∧
    (∀ (msgs : List SocketMessage), ∀ st ∈ progressTrace initialProgress msgs,
        0 ≤ st.progress ∧ st.progress ≤ 100) :=
  ⟨mergeProgress_progress_eq_max, rfl, clampProgress_some,
   fun msgs => progressTrace_bounds initialProgress (by decide) (by decide) msgs⟩

/-- Witness for C10 at the concrete out-of-range value 250 delivered
against the initial state. -/
theorem progress_clamped_in_range_witness :
    (mergeProgress initialProgress (mkProgressMsg 250)).progress =
      max initialProgress.progress (clampProgress (mkProgressMsg 250).progress) ∧
    clampProgress none = 0 :=
  ⟨progress_clamped_in_range.1 initialProgress (mkProgressMsg 250) rfl,
   progress_clamped_in_range.2.1⟩

/-- C7: a socket frame whose payload is not valid JSON is logged and
dropped without crashing the listener: the handler is total, records the
error branch, and leaves the last decoded message and the connection
flag unchanged. -/
theorem malformed_frame_dropped (st : WsState) :
    (onMessage st none).1.lastMessage = st.lastMessage ∧
    (onMessage st none).1.connected = st.connected ∧
    (onMessage st none).2 = true :=
  ⟨rfl, rfl, rfl⟩

/-! ### Helper lemmas about the polling loop -/

/-- Every navigation a poll tick schedules has the 2000 ms delay and is
accompanied by clearing the interval. -/
theorem pollTick_nav (p : Fetch (Option Project)) (f : Fetch (Option Takeoff)) :
    (pollTick p f).navDelay = none ∨
    ((pollTick p f).navDelay = some 2000 ∧ (pollTick p f).stopPolling = true) := by
  unfold pollTick
  cases p with
  | ok v =>
    cases v with
    | none => exact Or.inl rfl
    | some proj =>
      dsimp only
      split_ifs <;> simp [noTickEffect]
  | err =>
    cases f with
    | ok w =>
      cases w with
      | none => exact Or.inl rfl
      | some takeoff =>
        dsimp only
        split_ifs <;> simp [noTickEffect]
    | err => exact Or.inl rfl

/-- The session scheduler preserves the session invariant. -/
theorem stepSession_inv (st : SessionState)
    (inp : Fetch (Option Project) × Fetch (Option Takeoff))
    (h : SessInv st) : SessInv (stepSession st inp) := by
  obtain ⟨hlen, hall, hnav, hticks⟩ := h
  unfold stepSession
  split
  · next hact =>
    split
    · next htime =>
      have hempty : st.navsScheduled = [] := by
        by_contra hne
        rw [hnav hne] at hact
        simp at hact
      have hticks' : st.ticksRun + 1 ≤ maxPollTicks := by
        unfold tickTime pollIntervalMs pollTimeoutMs at htime
        unfold maxPollTicks pollTimeoutMs pollIntervalMs
        omega
      rcases pollTick_nav inp.1 inp.2 with hn | ⟨hn, hs⟩
      · exact ⟨by simp [hempty, hn], by simp [hempty, hn], by simp [hempty, hn], hticks'⟩
      · exact ⟨by simp [hempty, hn], by simp [hempty, hn], by simp [hempty, hn, hs], hticks'⟩
    · exact ⟨hlen, hall, fun _ => rfl, hticks⟩
  · exact ⟨hlen, hall, hnav, hticks⟩

/-- Folding the scheduler from an invariant state keeps the invariant. -/
theorem foldl_stepSession_inv
    (inps : List (Fetch (Option Project) × Fetch (Option Takeoff))) :
    ∀ st, SessInv st → SessInv (inps.foldl stepSession st) := by
  induction inps with
  | nil => intro st h; exact h
  | cons i is ih => intro st h; exact ih _ (stepSession_inv st i h)

/-- Every complete polling session satisfies the session invariant. -/
theorem runSession_inv
    (inps : List (Fetch (Option Project) × Fetch (Option Takeoff))) :
    SessInv (runSession inps) := by
  unfold runSession
  refine foldl_stepSession_inv inps initialSession ?_
  unfold SessInv initialSession maxPollTicks pollTimeoutMs pollIntervalMs
  exact ⟨by decide, by decide, by decide, by decide⟩

/-- A fire step followed by the matching resolution preserves the
invariant of non-overlapping sessions. -/
theorem stepAsync_pair_inv (st : AsyncSessionState)
    (inp : Fetch (Option Project) × Fetch (Option Takeoff))
    (h : AsyncInv st) : AsyncInv (stepAsync (stepAsync st (.fire inp)) .resolve) := by
  obtain ⟨hpend, hlen, hall, hnav⟩ := h
  by_cases hact : st.pollingActive = true
  · have hempty : st.navsScheduled = [] := by
      by_contra hne
      rw [hnav hne] at hact
      simp at hact
    have h1 : stepAsync st (.fire inp) = { st with pending := [inp] } := by
      simp [stepAsync, hact, hpend]
    rw [h1]
    unfold stepAsync
    dsimp only
    rcases pollTick_nav inp.1 inp.2 with hn | ⟨hn, hs⟩
    · exact ⟨rfl, by simp [hempty, hn], by simp [hempty, hn], by simp [hempty, hn]⟩
    · exact ⟨rfl, by simp [hempty, hn], by simp [hempty, hn], by simp [hn, hs]⟩
  · have h1 : stepAsync st (.fire inp) = st := by
      simp [stepAsync, hact]
    rw [h1]
    unfold stepAsync
    rw [hpend]
    exact ⟨hpend, hlen, hall, hnav⟩

/-- Folding a non-overlapping event schedule keeps the invariant. -/
theorem serializedEvents_inv
    (inps : List (Fetch (Option Project) × Fetch (Option Takeoff))) :
    ∀ st, AsyncInv st → AsyncInv ((serializedEvents inps).foldl stepAsync st) := by
  induction inps with
  | nil => intro st h; exact h
  | cons i is ih =>
    intro st h
    simp only [serializedEvents, List.foldl_cons]
    exact ih _ (stepAsync_pair_inv st i h)

/-- Counterexample to C2 as stated: two interval callbacks overlap at
their `await` and both resolve to a project with status `completed`;
the first continuation clears the interval and schedules a navigation,
but `clearInterval` does not cancel the second continuation, already in
flight, which schedules a second navigation in the same session. -/
theorem overlapping_success_double_navigation :
    (runAsyncSession
      [.fire (.ok (some ⟨some "completed", none, none⟩), .err),
       .fire (.ok (some ⟨some "completed", none, none⟩), .err),
       .resolve, .resolve]).navsScheduled = [2000, 2000] := by
  decide

/-- C2 (amended): a poll tick observing a terminal success status
(`completed`, `ai_complete` or `expert_review`) clears the interval and
schedules exactly one navigation with a 2000 ms delay and no error;
and in any session whose interval callbacks do not overlap — each
callback's fetch resolves before the next timer firing — at most one
navigation is ever scheduled, every one with the 2000 ms delay.
(Overlapping in-flight callbacks can each schedule a navigation, since
`clearInterval` does not cancel a continuation already past its
`await`.) -/
theorem terminal_success_navigates_serialized :
    (∀ (p : Fetch (Option Project)) (f : Fetch (Option Takeoff)),
        tickObservedStatus p f = some "completed" ∨
        tickObservedStatus p f = some "ai_complete" ∨
        tickObservedStatus p f = some "expert_review" →
        (pollTick p f).stopPolling = true ∧ (pollTick p f).navDelay = some 2000 ∧
        (pollTick p f).errorMsg = none) ∧
    (∀ inps, (runAsyncSession (serializedEvents inps)).navsScheduled.length ≤ 1 ∧
        ∀ d ∈ (runAsyncSession (serializedEvents inps)).navsScheduled, d = 2000) := by
  constructor
  · intro p f h
    cases p with
    | ok v =>
      cases v with
      | none => simp [tickObservedStatus] at h
      | some proj =>
        simp only [tickObservedStatus] at h
        unfold pollTick
        dsimp only
        rw [if_pos (by tauto)]
        exact ⟨rfl, rfl, rfl⟩
    | err =>
      cases f with
      | ok w =>
        cases w with
        | none => simp [tickObservedStatus] at h
        | some takeoff =>
          simp only [tickObservedStatus] at h
          unfold pollTick
          dsimp only
          rw [if_pos (by tauto)]
          exact ⟨rfl, rfl, rfl⟩
      | err => simp [tickObservedStatus] at h
  · intro inps
    have h := serializedEvents_inv inps initialAsyncSession
      ⟨rfl, by decide, by decide, by decide⟩
    exact ⟨h.2.1, h.2.2.1⟩

/-- Witness for C2 (amended) at a concrete tick resolving a project
with status `completed`. -/
theorem terminal_success_navigates_serialized_witness :
    (pollTick (.ok (some ⟨some "completed", none, none⟩)) .err).stopPolling = true ∧
    (pollTick (.ok (some ⟨some "completed", none, none⟩)) .err).navDelay = some 2000 ∧
    (pollTick (.ok (some ⟨some "completed", none, none⟩)) .err).errorMsg = none :=
  terminal_success_navigates_serialized.1 _ _ (Or.inl (by decide))

/-- C3: a poll tick observing a terminal failure status (`cancelled` or
`failed`) clears the interval, schedules no navigation, and sets the
corresponding user-visible message; and a session whose interval has
been cleared is frozen, so no later tick navigates as a result of that
status. -/
theorem terminal_failure_stops_no_navigation :
    (∀ (p : Fetch (Option Project)) (f : Fetch (Option Takeoff)),
        tickObservedStatus p f = some "cancelled" ∨
        tickObservedStatus p f = some "failed" →
        (pollTick p f).stopPolling = true ∧ (pollTick p f).navDelay = none ∧
        (pollTick p f).errorMsg =
          some (if tickObservedStatus p f = some "cancelled"
                then "Processing was cancelled" else "Processing failed")) ∧
    (∀ (st : SessionState) (inp : Fetch (Option Project) × Fetch (Option Takeoff)),
        st.pollingActive = false → stepSession st inp = st) := by
  constructor
  · intro p f h
    cases p with
    | ok v =>
      cases v with
      | none => simp [tickObservedStatus] at h
      | some proj =>
        simp only [tickObservedStatus] at h ⊢
        unfold pollTick
        dsimp only
        rcases h with h | h <;> simp [h, noTickEffect]
    | err =>
      cases f with
      | ok w =>
        cases w with
        | none => simp [tickObservedStatus] at h
        | some takeoff =>
          simp only [tickObservedStatus] at h ⊢
          unfold pollTick
          dsimp only
          rcases h with h | h <;> simp [h, noTickEffect]
      | err => simp [tickObservedStatus] at h
  · intro st inp h
    unfold stepSession
    rw [if_neg (by simp [h])]

/-- Witness for C3 at a concrete tick resolving a project with status
`failed`. -/
theorem terminal_failure_stops_no_navigation_witness :
    (pollTick (.ok (some ⟨some "failed", none, none⟩)) .err).stopPolling = true ∧
    (pollTick (.ok (some ⟨some "failed", none, none⟩)) .err).navDelay = none ∧
    (pollTick (.ok (some ⟨some "failed", none, none⟩)) .err).errorMsg =
      some (if tickObservedStatus (.ok (some ⟨some "failed", none, none⟩)) .err
              = some "cancelled"
            then "Processing was cancelled" else "Processing failed") :=
  terminal_failure_stops_no_navigation.1 _ _ (Or.inr (by decide))

/-- C4: when the primary fetch rejects, the fallback takeoff fetch is
attempted on that same tick; when both reject, the tick has no effects
at all (the failure is swallowed and polling continues); and the session
runs at most `maxPollTicks` callbacks, while once the 5-minute ceiling
has passed the scheduler forces the interval cleared and runs no further
callback. -/
theorem fallback_then_swallow_and_ceiling :
    (∀ f : Fetch (Option Takeoff), (pollTick .err f).fallbackAttempted = true) ∧
    pollTick .err .err = { noTickEffect with fallbackAttempted := true } ∧
    (∀ inps, (runSession inps).ticksRun ≤ maxPollTicks) ∧
    (∀ (st : SessionState) (inp : Fetch (Option Project) × Fetch (Option Takeoff)),
        tickTime st.ticksRun > pollTimeoutMs →
        (stepSession st inp).pollingActive = false ∧
        (stepSession st inp).ticksRun = st.ticksRun) := by
  refine ⟨?_, rfl, ?_, ?_⟩
  · intro f
    unfold pollTick
    cases f with
    | ok w =>
      cases w with
      | none => rfl
      | some takeoff =>
        dsimp only
        split_ifs <;> rfl
    | err => rfl
  · intro inps
    exact (runSession_inv inps).2.2.2
  · intro st inp h
    unfold stepSession
    split
    · next hact =>
      rw [if_neg (by omega)]
      exact ⟨rfl, rfl⟩
    · next hact =>
      simp only [Bool.not_eq_true] at hact
      exact ⟨hact, rfl⟩

/-- Witness for C4 at the first callback past the 5-minute ceiling
(tick number 100, due at 303000 ms). -/
theorem fallback_then_swallow_and_ceiling_witness :
    (stepSession ⟨true, 100, [], none⟩ (.err, .err)).pollingActive = false ∧
    (stepSession ⟨true, 100, [], none⟩ (.err, .err)).ticksRun = 100 :=
  fallback_then_swallow_and_ceiling.2.2.2 ⟨true, 100, [], none⟩ (.err, .err) (by decide)

/-- C8: a poll tick resolving a project whose effective status is
`processing` but whose `takeoff_result` is non-null clears the interval
and schedules the 2000 ms navigation even though no terminal status was
observed. -/
theorem processing_with_takeoff_result_navigates (proj : Project)
    (f : Fetch (Option Takeoff))
    (hstatus : jsOrStr proj.status proj.project_status = some "processing")
    (hres : proj.takeoff_result.isSome = true) :
    pollTick (.ok (some proj)) f =
      { stopPolling := true, navDelay := some 2000, errorMsg := none,
        fallbackAttempted := false } := by
  unfold pollTick
  dsimp only
  rw [hstatus]
  simp [hres]

/-- Witness for C8 at a concrete `processing` project carrying a
takeoff result. -/
theorem processing_with_takeoff_result_navigates_witness :
    pollTick (.ok (some ⟨some "processing", none, some ⟨"result"⟩⟩)) .err =
      { stopPolling := true, navDelay := some 2000, errorMsg := none,
        fallbackAttempted := false } :=
  processing_with_takeoff_result_navigates _ _ (by decide) (by decide)

/-- C5: a confirmed cancel with a loaded project and processing underway
always issues the backend cancellation request; when the request
succeeds it clears the polling interval and sets the displayed state to
stage `cancelled` with 0% progress; when the request fails the error is
surfaced, the prior displayed progress is left intact, and the cancel
button is re-enabled and still rendered (`isCancelling` reset, and
`isProcessing` unchanged), so the user can retry. -/
theorem cancel_confirmed_effects (st : CancelViewState) (msg : String)
    (hproc : st.isProcessing = true) :
    (handleCancel st true true (.ok ())).2.requestIssued = true ∧
    (handleCancel st true true (.ok ())).1.pollingActive = false ∧
    (handleCancel st true true (.ok ())).1.isProcessing = false ∧
    (handleCancel st true true (.ok ())).1.progress =
      { stage := "cancelled", progress := 0, message := "Processing cancelled" } ∧
    (handleCancel st true true (.error msg)).2.requestIssued = true ∧
    (handleCancel st true true (.error msg)).1.error = some msg ∧
    (handleCancel st true true (.error msg)).1.progress = st.progress ∧
    (handleCancel st true true (.error msg)).1.isCancelling = false ∧
    (handleCancel st true true (.error msg)).1.isProcessing = st.isProcessing := by
  unfold handleCancel
  simp [hproc]

/-- Witness for C5 at a concrete processing view state: a failed cancel
surfaces the backend message and a successful cancel clears polling. -/
theorem cancel_confirmed_effects_witness :
    (handleCancel ⟨true, false, none, initialProgress, true⟩ true true
        (.error "Network Error")).1.error = some "Network Error" ∧
    (handleCancel ⟨true, false, none, initialProgress, true⟩ true true
        (.ok ())).1.pollingActive = false :=
  ⟨(cancel_confirmed_effects ⟨true, false, none, initialProgress, true⟩
      "Network Error" rfl).2.2.2.2.2.1,
   (cancel_confirmed_effects ⟨true, false, none, initialProgress, true⟩
      "Network Error" rfl).2.1⟩

/-- C9: a confirmed cancel whose backend request succeeds schedules a
navigation to the project results path with a 2000 ms delay. -/
theorem successful_cancel_schedules_navigation (st : CancelViewState)
    (hproc : st.isProcessing = true) :
    (handleCancel st true true (.ok ())).2.navDelay = some 2000 := by
  unfold handleCancel
  simp [hproc]

/-- Witness for C9 at a concrete processing view state. -/
theorem successful_cancel_schedules_navigation_witness :
    (handleCancel ⟨true, false, none, initialProgress, true⟩ true true
        (.ok ())).2.navDelay = some 2000 :=
  successful_cancel_schedules_navigation _ rfl

end ConstructionAI
